import Mathlib

/-!
Verification development for a chunked concurrent aggregation program
(One Billion Row Challenge style). The program reads a newline-delimited
byte file of records of the shape key;value, splits it into record-aligned
chunks, tallies each chunk into a per-key aggregate (low, high, running
sum, count), merges the per-chunk aggregates, and finalizes a mean per key.

The embedding below follows src/main.rs. Byte streams are lists of Nat
(byte values), the f32 temperature values are modelled as exact rationals
(the claims under test restrict attention to exact or integer-valued
inputs), and the HashMap of city metrics is modelled extensionally as a
function from key bytes to an optional record. A Rust panic inside the
tally task is modelled by Option: none means the unit of work died.
-/

/-- Per-key aggregate, mirroring struct CityMetrics in main.rs
(fields low, high, temperature_sum, mean, num_temps). -/
structure CityMetrics where
  low : ℚ
  high : ℚ
  temperature_sum : ℚ
  mean : ℚ
  num_temps : Nat
deriving DecidableEq

/-- The mapping from city-name bytes to metrics; HashMap String CityMetrics
is modelled extensionally as a function on the UTF-8 key bytes. -/
def CMap : Type := List Nat → Option CityMetrics

/-- The empty mapping (HashMap::new()). -/
def emptyMap : CMap := fun _ => none

/-- A UTF-8 continuation byte, 0x80 to 0xBF. -/
def isCont (b : Nat) : Bool := 128 ≤ b && b ≤ 191

/-- Validity of a byte list as UTF-8, as checked by std::str::from_utf8:
ASCII, 2-byte sequences with lead 0xC2-0xDF, 3-byte sequences with lead
0xE0-0xEF (excluding overlongs and surrogates), 4-byte sequences with lead
0xF0-0xF4 (excluding overlongs and values beyond U+10FFFF). -/
def validUtf8 : List Nat → Bool
  | [] => true
  | b :: rest =>
    if b ≤ 127 then validUtf8 rest
    else if 194 ≤ b && b ≤ 223 then
      match rest with
      | c1 :: rest1 => isCont c1 && validUtf8 rest1
      | [] => false
    else if 224 ≤ b && b ≤ 239 then
      match rest with
      | c1 :: c2 :: rest2 =>
        (if b = 224 then 160 ≤ c1 && c1 ≤ 191
         else if b = 237 then 128 ≤ c1 && c1 ≤ 159
         else isCont c1) && isCont c2 && validUtf8 rest2
      | _ => false
    else if 240 ≤ b && b ≤ 244 then
      match rest with
      | c1 :: c2 :: c3 :: rest3 =>
        (if b = 240 then 144 ≤ c1 && c1 ≤ 191
         else if b = 244 then 128 ≤ c1 && c1 ≤ 143
         else isCont c1) && isCont c2 && isCont c3 && validUtf8 rest3
      | _ => false
    else false

/-- Splitting a record at the first delimiter byte 59, mirroring
line.split_once of the semicolon: returns the key bytes and the value
bytes, or none when no delimiter occurs. On valid UTF-8 input the first
59 byte is exactly the first semicolon character. -/
def splitOnce : List Nat → Option (List Nat × List Nat)
  | [] => none
  | b :: rest =>
    if b = 59 then some ([], rest)
    else (splitOnce rest).map (fun p => (b :: p.1, p.2))

/-- A decimal digit byte, 0x30 to 0x39. -/
def isDigit (b : Nat) : Bool := 48 ≤ b && b ≤ 57

/-- Value of a list of digit bytes read left to right. -/
def digitsVal (l : List Nat) : Nat := l.foldl (fun a b => a * 10 + (b - 48)) 0

/-- Numeric parse of the value field, modelling the plain-decimal subset of
temp_str.parse::<f32>() exactly over the rationals: an optional sign
followed by digits, optionally a point and more digits, with at least one
digit present and nothing trailing. (The exotic forms the Rust float parser
also accepts, exponents and inf/nan, do not occur in the inputs any claim
is about.) -/
def parseNum (s : List Nat) : Option ℚ :=
  let core : List Nat → Option ℚ := fun t =>
    let ip := t.takeWhile isDigit
    let r1 := t.dropWhile isDigit
    match r1 with
    | [] => if ip.isEmpty then none else some (digitsVal ip)
    | 46 :: r2 =>
      let fp := r2.takeWhile isDigit
      let r3 := r2.dropWhile isDigit
      if r3.isEmpty && !(ip.isEmpty && fp.isEmpty) then
        some ((digitsVal ip : ℚ) + (digitsVal fp : ℚ) / ((10 : ℚ) ^ fp.length))
      else none
    | _ => none
  match s with
  | 43 :: r => core r
  | 45 :: r => (core r).map (fun q => -q)
  | _ => core s

/-- The and_modify closure of async_tally: check the new-high branch first
and only check the new-low branch when the value did not qualify as a new
high, then increment the count and add the value to the running sum. -/
def tallyUpdate (c : CityMetrics) (v : ℚ) : CityMetrics :=
  let c1 :=
    if v > c.high then { c with high := v }
    else if v < c.low then { c with low := v }
    else c
  { c1 with num_temps := c1.num_temps + 1,
            temperature_sum := c1.temperature_sum + v }

/-- The or_insert record of async_tally: high = low = value, mean = 0,
temperature_sum = 0 (the Rust source initializes the sum to 0.0, not to
the value), num_temps = 1. -/
def tallyInsert (v : ℚ) : CityMetrics :=
  { low := v, high := v, temperature_sum := 0, mean := 0, num_temps := 1 }

/-- The effect of cities.entry(city).and_modify(..).or_insert(..) on the
mapping, for one observation of key city with value v. -/
def applyRecord (m : CMap) (city : List Nat) (v : ℚ) : CMap := fun j =>
  if j = city then
    some (match m city with
          | some c => tallyUpdate c v
          | none => tallyInsert v)
  else m j

/-- Processing of the record bytes between two newline positions: invalid
UTF-8 is silently skipped (the if-let around from_utf8), a missing
delimiter panics (expect on split_once), an unparseable value field panics
(expect on parse), and otherwise the mapping is updated. none models the
panic killing the tally task. -/
def processRecord (m : CMap) (rec : List Nat) : Option CMap :=
  if validUtf8 rec then
    match splitOnce rec with
    | none => none
    | some (city, temp) =>
      match parseNum temp with
      | none => none
      | some v => some (applyRecord m city v)
  else some m

/-- One step of the byte loop of async_tally: the state is the mapping so
far together with the bytes of the current record (those since the last
newline, i.e. since index start in the Rust code); a newline byte hands
the pending record to processRecord and resets the pending bytes. -/
def tallyStep (s : CMap × List Nat) (b : Nat) : Option (CMap × List Nat) :=
  if b = 10 then (processRecord s.1 s.2).map (fun m => (m, ([] : List Nat)))
  else some (s.1, s.2 ++ [b])

/-- The byte loop of async_tally run from an arbitrary state. -/
def tallyRun (s : CMap × List Nat) (data : List Nat) : Option (CMap × List Nat) :=
  data.foldlM tallyStep s

/-- The mapping async_tally sends back for one chunk: run the byte loop
from the empty mapping; trailing bytes after the last newline are left in
the pending component and discarded. none models a panic in the task. -/
def tallyMap (data : List Nat) : Option CMap :=
  (tallyRun (emptyMap, []) data).map (fun t => t.1)

/-- The merge of one incoming per-chunk entry b into the accumulated entry
a of all_cities (the reducer loop of main): counts and sums add, high and
low are taken elementwise, and the mean field of the accumulator is left
untouched. -/
def mergeCity (a b : CityMetrics) : CityMetrics :=
  { num_temps := a.num_temps + b.num_temps,
    temperature_sum := a.temperature_sum + b.temperature_sum,
    high := if b.high > a.high then b.high else a.high,
    low := if b.low < a.low then b.low else a.low,
    mean := a.mean }

/-- Pointwise merge of optional entries: a key present in both maps is
combined with mergeCity, a key present in one side is carried through
(or_insert of the incoming clone). -/
def mrg (o1 o2 : Option CityMetrics) : Option CityMetrics :=
  match o1, o2 with
  | some a, some b => some (mergeCity a b)
  | some a, none => some a
  | none, some b => some b
  | none, none => none

/-- Merge of an incoming mapping into the accumulator mapping. The Rust
reducer iterates the incoming HashMap and folds each entry into all_cities;
extensionally this is the pointwise merge. -/
def mergeMaps (acc inc : CMap) : CMap := fun k => mrg (acc k) (inc k)

/-- Finalization pass of main: mean = temperature_sum / num_temps for every
key, computed once after all merging. -/
def finalizeMap (m : CMap) : CMap := fun k =>
  (m k).map (fun c => { c with mean := c.temperature_sum / (c.num_temps : ℚ) })

/-- The read-and-realign loop of main, with the reader modelled as always
returning min(requested, remaining) bytes. The state is the carry
(chunk_remainder), the bytes not yet read, the allocated buffer size
(chunk_size + extra_chunky) and fuel (the loop consumes at least one byte
per iteration, so fuel = length + 1 is enough). Each iteration allocates a
zero-filled buffer, copies the carry to the front, fills the rest from the
source, and: on a zero-byte read breaks; if the source is exhausted emits
the buffer as-is (including the zero-initialized tail the read did not
overwrite); otherwise scans backward for the last newline, trims the chunk
there and carries the rest forward, or, when no newline exists in the
buffer, prints an error and continues with the untrimmed chunk. Returns
the emitted chunks and whether the no-newline error was ever hit. -/
def splitGo (carry remaining : List Nat) (bufSize : Nat) :
    Nat → List (List Nat) × Bool
  | 0 => ([], false)
  | fuel + 1 =>
    let requested := bufSize - carry.length
    let readBytes := remaining.take requested
    if readBytes.length = 0 then ([], false)
    else
      let pad := requested - readBytes.length
      let buffer := carry ++ readBytes ++ List.replicate pad 0
      let rest := remaining.drop requested
      if rest.length = 0 then ([buffer], false)
      else
        match buffer.reverse.findIdx? (fun b => b == 10) with
        | some revpos =>
          let oi := buffer.length - revpos
          let out := splitGo (buffer.drop oi) rest bufSize fuel
          (buffer.take oi :: out.1, out.2)
        | none =>
          let out := splitGo [] rest bufSize fuel
          (buffer :: out.1, true)

/-- The chunks the read loop dispatches to tally tasks, in emission order. -/
def splitChunks (stream : List Nat) (bufSize : Nat) : List (List Nat) :=
  (splitGo [] stream bufSize (stream.length + 1)).1

/-- Whether the read loop ever printed the no-newline alignment error. -/
def splitAlignErr (stream : List Nat) (bufSize : Nat) : Bool :=
  (splitGo [] stream bufSize (stream.length + 1)).2

/-- The merged mapping the collection loop of main ends with. The loop
blocks on the channel and only checks its exit condition after receiving a
message, so with zero dispatched tasks it waits forever; likewise, a task
that panicked never sends, so the loop never reaches zero outstanding
tasks. Both stuck situations (and the process abort async-std performs on
a task panic) yield no mapping: none. Otherwise every per-chunk mapping
arrives and is folded into all_cities. -/
def pipelineMerged (stream : List Nat) (bufSize : Nat) : Option CMap :=
  match splitChunks stream bufSize with
  | [] => none
  | chunks =>
    match chunks.mapM tallyMap with
    | none => none
    | some ms => some (ms.foldl mergeMaps emptyMap)

/-- The finalized mapping (mean filled in). -/
def pipelineFinal (stream : List Nat) (bufSize : Nat) : Option CMap :=
  (pipelineMerged stream bufSize).map finalizeMap

/-- Projection to the fields low, high and count. -/
def proj3 (o : Option CityMetrics) : Option (ℚ × ℚ × Nat) :=
  o.map (fun c => (c.low, c.high, c.num_temps))

/-- Projection to the fields low, high, sum and count. -/
def proj4 (o : Option CityMetrics) : Option (ℚ × ℚ × ℚ × Nat) :=
  o.map (fun c => (c.low, c.high, c.temperature_sum, c.num_temps))

/-- A chunk that ends exactly after a record separator. -/
def endsNL (c : List Nat) : Bool := c.getLast? == some 10

/-- Every chunk except possibly the last ends exactly after a record
separator (the shape the splitter produces when alignment succeeds). -/
def alignedChunks : List (List Nat) → Bool
  | [] => true
  | [_] => true
  | c :: rest => endsNL c && alignedChunks rest

/-- The invariant of claim C9 for one mapping: every entry has
low ≤ high and count ≥ 1. -/
def GoodMap (m : CMap) : Prop :=
  ∀ k c, m k = some c → c.low ≤ c.high ∧ 1 ≤ c.num_temps

/-! Basic facts about the byte loop of the chunk aggregator. -/

lemma tallyRun_nil (s : CMap × List Nat) : tallyRun s [] = some s := rfl

lemma tallyRun_cons (s : CMap × List Nat) (b : Nat) (data : List Nat) :
    tallyRun s (b :: data) = (tallyStep s b).bind (fun t => tallyRun t data) := by
  cases h : tallyStep s b <;> simp [tallyRun, List.foldlM_cons, h, Option.bind]

lemma tallyRun_append (s : CMap × List Nat) (l1 l2 : List Nat) :
    tallyRun s (l1 ++ l2) = (tallyRun s l1).bind (fun t => tallyRun t l2) := by
  cases h : tallyRun s l1 <;>
    simp [tallyRun, List.foldlM_append, tallyRun] at h ⊢ <;> simp [h, Option.bind]

lemma tallyRun_no_newline :
    ∀ (data : List Nat) (m : CMap) (acc : List Nat), (∀ b ∈ data, b ≠ 10) →
      tallyRun (m, acc) data = some (m, acc ++ data) := by
  intro data
  induction data with
  | nil => intro m acc _; simp [tallyRun_nil]
  | cons b rest ih =>
    intro m acc h
    have hb : b ≠ 10 := h b (List.mem_cons_self b rest)
    rw [tallyRun_cons]
    have hstep : tallyStep (m, acc) b = some (m, acc ++ [b]) := by
      simp [tallyStep, hb]
    rw [hstep]
    have := ih m (acc ++ [b]) (fun x hx => h x (List.mem_cons_of_mem b hx))
    simp [this, Option.bind, List.append_assoc]

lemma tallyRun_single_newline (u : CMap × List Nat) :
    tallyRun u [10] = (processRecord u.1 u.2).map (fun m => (m, ([] : List Nat))) := by
  rw [tallyRun_cons]
  cases h : processRecord u.1 u.2 <;> simp [tallyStep, h, tallyRun_nil, Option.bind]

lemma tallyRun_ends_newline (c : List Nat) (s t : CMap × List Nat)
    (hend : c.getLast? = some 10) (hr : tallyRun s c = some t) : t.2 = [] := by
  obtain ⟨ys, rfl⟩ := List.getLast?_eq_some_iff.mp hend
  rw [tallyRun_append] at hr
  rw [Option.bind_eq_some] at hr
  obtain ⟨u, _, hu⟩ := hr
  rw [tallyRun_single_newline] at hu
  rw [Option.map_eq_some'] at hu
  obtain ⟨m, _, hm⟩ := hu
  rw [← hm]

/-! The record-skipping and panic behavior of one record (claims C7, C10). -/

lemma tallyRun_record (m : CMap) (rec rest : List Nat) (hnl : ∀ b ∈ rec, b ≠ 10) :
    tallyRun (m, []) (rec ++ 10 :: rest) =
      (processRecord m rec).bind (fun m2 => tallyRun (m2, []) rest) := by
  have h1 : rec ++ 10 :: rest = (rec ++ [10]) ++ rest := by
    simp [List.append_assoc]
  rw [h1, tallyRun_append, tallyRun_append, tallyRun_no_newline rec m [] hnl]
  simp only [Option.bind, tallyRun_single_newline]
  cases h : processRecord m rec <;> simp [h, Option.bind]

/-- C10: the mapping a chunk aggregator produces depends only on the bytes
up to and including the last record separator in the chunk: appending any
separator-free suffix changes nothing, and a chunk with no separator at
all yields the empty mapping. -/
theorem tally_ignores_tail_after_last_separator :
    (∀ data suffix : List Nat, (∀ b ∈ suffix, b ≠ 10) →
       tallyMap (data ++ suffix) = tallyMap data)
  ∧ (∀ data : List Nat, (∀ b ∈ data, b ≠ 10) →
       tallyMap data = some emptyMap) := by
  constructor
  · intro data suffix h
    unfold tallyMap
    rw [tallyRun_append]
    cases hd : tallyRun (emptyMap, []) data with
    | none => simp [Option.bind]
    | some t =>
      obtain ⟨m, acc⟩ := t
      simp [Option.bind, tallyRun_no_newline suffix m acc h]
  · intro data h
    unfold tallyMap
    rw [tallyRun_no_newline data emptyMap [] h]
    rfl

/-- Witness for the previous theorem at concrete inputs. -/
theorem tally_ignores_tail_after_last_separator_witness :
    tallyMap ([97, 59, 49, 10] ++ [98, 99]) = tallyMap [97, 59, 49, 10]
  ∧ tallyMap [99] = some emptyMap :=
  ⟨tally_ignores_tail_after_last_separator.1 [97, 59, 49, 10] [98, 99] (by decide),
   tally_ignores_tail_after_last_separator.2 [99] (by decide)⟩

/-- C7: a record with a missing delimiter or an unparseable value field is
a fatal parse error for its tally task, never silently skipped, while a
record whose bytes are not valid UTF-8 is silently skipped and the rest of
the chunk is still aggregated. -/
theorem record_error_asymmetry :
    (∀ (m : CMap) (rec rest : List Nat), (∀ b ∈ rec, b ≠ 10) →
       validUtf8 rec = true → splitOnce rec = none →
       (tallyRun (m, []) (rec ++ 10 :: rest)).map (fun t => t.1) = none)
  ∧ (∀ (m : CMap) (rec rest city temp : List Nat), (∀ b ∈ rec, b ≠ 10) →
       validUtf8 rec = true → splitOnce rec = some (city, temp) →
       parseNum temp = none →
       (tallyRun (m, []) (rec ++ 10 :: rest)).map (fun t => t.1) = none)
  ∧ (∀ (m : CMap) (rec rest : List Nat), (∀ b ∈ rec, b ≠ 10) →
       validUtf8 rec = false →
       (tallyRun (m, []) (rec ++ 10 :: rest)).map (fun t => t.1) =
         (tallyRun (m, []) rest).map (fun t => t.1)) := by
  refine ⟨?_, ?_, ?_⟩
  · intro m rec rest hnl hv hs
    rw [tallyRun_record m rec rest hnl]
    simp [processRecord, hv, hs, Option.bind]
  · intro m rec rest city temp hnl hv hs hp
    rw [tallyRun_record m rec rest hnl]
    simp [processRecord, hv, hs, hp, Option.bind]
  · intro m rec rest hnl hv
    rw [tallyRun_record m rec rest hnl]
    simp [processRecord, hv, Option.bind]

/-- Witness for the record error asymmetry at concrete records: "a" has no
delimiter, "a;x" has an unparseable value, and the single byte 0xFF is not
valid UTF-8 yet the record "a;1" after it is still aggregated. -/
theorem record_error_asymmetry_witness :
    (tallyRun (emptyMap, []) ([97] ++ 10 :: [])).map (fun t => t.1) = none
  ∧ (tallyRun (emptyMap, []) ([97, 59, 120] ++ 10 :: [])).map (fun t => t.1) = none
  ∧ (tallyRun (emptyMap, []) ([255] ++ 10 :: [97, 59, 49, 10])).map (fun t => t.1) =
      (tallyRun (emptyMap, []) [97, 59, 49, 10]).map (fun t => t.1) :=
  ⟨record_error_asymmetry.1 emptyMap [97] [] (by decide) (by decide) (by decide),
   record_error_asymmetry.2.1 emptyMap [97, 59, 120] [] [97] [120]
     (by decide) (by decide) (by decide) (by decide),
   record_error_asymmetry.2.2 emptyMap [255] [97, 59, 49, 10] (by decide) (by decide)⟩

/-- C1 (evaluation at the failing input): on first sight of key "a" with
value 1 the inserted aggregate has low = high = 1 and count = 1 but
temperature_sum = 0 rather than the observed value 1. -/
theorem insert_on_first_sight_sum_zero :
    (tallyMap [97, 59, 49, 10]).bind (fun m => m [97]) =
      some { low := 1, high := 1, temperature_sum := 0, mean := 0, num_temps := 1 } := by
  decide

/-! Field-level descriptions of the update and merge operations. -/

lemma if_lt_max (a v : ℚ) : (if a < v then v else a) = max a v := by
  rcases lt_or_le a v with h | h
  · rw [if_pos h, max_eq_right h.le]
  · rw [if_neg (not_lt.mpr h), max_eq_left h]

lemma if_lt_min (a v : ℚ) : (if v < a then v else a) = min a v := by
  rcases lt_or_le v a with h | h
  · rw [if_pos h, min_eq_right h.le]
  · rw [if_neg (not_lt.mpr h), min_eq_left h]

lemma tallyUpdate_fields (c : CityMetrics) (v : ℚ) (h : c.low ≤ c.high) :
    (tallyUpdate c v).low = min c.low v ∧ (tallyUpdate c v).high = max c.high v ∧
    (tallyUpdate c v).num_temps = c.num_temps + 1 ∧
    (tallyUpdate c v).temperature_sum = c.temperature_sum + v := by
  by_cases h1 : c.high < v
  · have hl : c.low ≤ v := le_trans h (le_of_lt h1)
    simp [tallyUpdate, h1, min_eq_left hl, max_eq_right (le_of_lt h1)]
  · by_cases h2 : v < c.low
    · have hh : v ≤ c.high := le_trans (le_of_lt h2) h
      simp [tallyUpdate, h1, h2, min_eq_right (le_of_lt h2), max_eq_left hh]
    · simp [tallyUpdate, h1, h2, min_eq_left (not_lt.mp h2), max_eq_left (not_lt.mp h1)]

lemma mergeCity_fields (a b : CityMetrics) :
    (mergeCity a b).low = min a.low b.low ∧ (mergeCity a b).high = max a.high b.high ∧
    (mergeCity a b).num_temps = a.num_temps + b.num_temps ∧
    (mergeCity a b).temperature_sum = a.temperature_sum + b.temperature_sum ∧
    (mergeCity a b).mean = a.mean := by
  unfold mergeCity
  refine ⟨?_, ?_, rfl, rfl, rfl⟩
  · show (if b.low < a.low then b.low else a.low) = min a.low b.low
    rcases lt_or_le b.low a.low with h | h
    · rw [if_pos h, min_eq_right h.le]
    · rw [if_neg (not_lt.mpr h), min_eq_left h]
  · show (if a.high < b.high then b.high else a.high) = max a.high b.high
    exact if_lt_max a.high b.high

/-! The low-high and count invariants (claim C9). -/

lemma goodMap_empty : GoodMap emptyMap := by
  intro k c h
  cases h

lemma goodMap_applyRecord (m : CMap) (city : List Nat) (v : ℚ) (h : GoodMap m) :
    GoodMap (applyRecord m city v) := by
  intro k c hk
  unfold applyRecord at hk
  by_cases hkc : k = city
  · rw [if_pos hkc] at hk
    cases hmc : m city with
    | some c0 =>
      rw [hmc] at hk
      obtain ⟨hlh, hn⟩ := h city c0 hmc
      obtain ⟨hl, hh, hcount, _⟩ := tallyUpdate_fields c0 v hlh
      have hc : c = tallyUpdate c0 v := by
        cases hk
        rfl
      subst hc
      refine ⟨?_, ?_⟩
      · rw [hl, hh]
        exact le_trans (min_le_left _ _) (le_trans hlh (le_max_left _ _))
      · rw [hcount]
        omega
    | none =>
      rw [hmc] at hk
      have hc : c = tallyInsert v := by
        cases hk
        rfl
      subst hc
      exact ⟨le_refl v, le_refl 1⟩
  · rw [if_neg hkc] at hk
    exact h k c hk

lemma processRecord_out (m : CMap) (rec : List Nat) (m2 : CMap)
    (hp : processRecord m rec = some m2) :
    m2 = m ∨ ∃ city v, m2 = applyRecord m city v := by
  unfold processRecord at hp
  split at hp
  · split at hp
    · cases hp
    · split at hp
      · cases hp
      · exact Or.inr ⟨_, _, (Option.some.inj hp).symm⟩
  · exact Or.inl (Option.some.inj hp).symm

lemma processRecord_good (m : CMap) (rec : List Nat) (h : GoodMap m) :
    ∀ m2, processRecord m rec = some m2 → GoodMap m2 := by
  intro m2 hp
  rcases processRecord_out m rec m2 hp with hm | ⟨city, v, hm⟩
  · subst hm
    exact h
  · subst hm
    exact goodMap_applyRecord m city v h

lemma goodMap_tallyRun :
    ∀ (data : List Nat) (s t : CMap × List Nat),
      GoodMap s.1 → tallyRun s data = some t → GoodMap t.1 := by
  intro data
  induction data with
  | nil =>
    intro s t h hr
    rw [tallyRun_nil] at hr
    cases hr
    exact h
  | cons b rest ih =>
    intro s t h hr
    rw [tallyRun_cons] at hr
    rw [Option.bind_eq_some] at hr
    obtain ⟨u, hu, hrest⟩ := hr
    refine ih u t ?_ hrest
    unfold tallyStep at hu
    by_cases hb : b = 10
    · rw [if_pos hb] at hu
      rw [Option.map_eq_some'] at hu
      obtain ⟨m2, hm2, hum⟩ := hu
      have h1 : u.1 = m2 := by rw [← hum]
      rw [h1]
      exact processRecord_good s.1 s.2 h m2 hm2
    · rw [if_neg hb] at hu
      have h1 : u.1 = s.1 := by
        cases hu
        rfl
      rw [h1]
      exact h

lemma tallyMap_good (data : List Nat) (m : CMap) (h : tallyMap data = some m) :
    GoodMap m := by
  unfold tallyMap at h
  rw [Option.map_eq_some'] at h
  obtain ⟨t, ht, hm⟩ := h
  rw [← hm]
  exact goodMap_tallyRun data (emptyMap, []) t goodMap_empty ht

lemma mergeCity_good (a b : CityMetrics)
    (ha : a.low ≤ a.high ∧ 1 ≤ a.num_temps) (hb : b.low ≤ b.high ∧ 1 ≤ b.num_temps) :
    (mergeCity a b).low ≤ (mergeCity a b).high ∧ 1 ≤ (mergeCity a b).num_temps := by
  obtain ⟨hl, hh, hn, _, _⟩ := mergeCity_fields a b
  refine ⟨?_, ?_⟩
  · rw [hl, hh]
    exact le_trans (min_le_left _ _) (le_trans ha.1 (le_max_left _ _))
  · rw [hn]
    omega

/-- C9: every mapping a chunk tally produces satisfies low ≤ high and
count ≥ 1 for each key present, and the reducer merge of two mappings
satisfying the invariant satisfies it again. -/
theorem tally_and_merge_invariants :
    (∀ (data k : List Nat) (c : CityMetrics),
       (tallyMap data).bind (fun m => m k) = some c →
       c.low ≤ c.high ∧ 1 ≤ c.num_temps)
  ∧ (∀ (m1 m2 : CMap) (k : List Nat) (c : CityMetrics),
       GoodMap m1 → GoodMap m2 → mergeMaps m1 m2 k = some c →
       c.low ≤ c.high ∧ 1 ≤ c.num_temps) := by
  constructor
  · intro data k c h
    rw [Option.bind_eq_some] at h
    obtain ⟨m, hm, hk⟩ := h
    exact tallyMap_good data m hm k c hk
  · intro m1 m2 k c h1 h2 h
    have h' : mrg (m1 k) (m2 k) = some c := h
    cases hm1 : m1 k with
    | some a =>
      cases hm2 : m2 k with
      | some b =>
        rw [hm1, hm2] at h'
        simp only [mrg] at h'
        have hc : c = mergeCity a b := (Option.some.inj h').symm
        subst hc
        exact mergeCity_good a b (h1 k a hm1) (h2 k b hm2)
      | none =>
        rw [hm1, hm2] at h'
        simp only [mrg] at h'
        cases h'
        exact h1 k _ hm1
    | none =>
      cases hm2 : m2 k with
      | some b =>
        rw [hm1, hm2] at h'
        simp only [mrg] at h'
        cases h'
        exact h2 k _ hm2
      | none =>
        rw [hm1, hm2] at h'
        simp only [mrg] at h'
        cases h'

/-- Witness for the invariants at a concrete tally and a concrete merge. -/
theorem tally_and_merge_invariants_witness :
    ((⟨1, 1, 0, 0, 1⟩ : CityMetrics).low ≤ (⟨1, 1, 0, 0, 1⟩ : CityMetrics).high
      ∧ 1 ≤ (⟨1, 1, 0, 0, 1⟩ : CityMetrics).num_temps)
  ∧ ((⟨1, 2, 0, 0, 2⟩ : CityMetrics).low ≤ (⟨1, 2, 0, 0, 2⟩ : CityMetrics).high
      ∧ 1 ≤ (⟨1, 2, 0, 0, 2⟩ : CityMetrics).num_temps) := by
  have g1 : GoodMap (fun k => if k = [97] then some ⟨1, 1, 0, 0, 1⟩ else none) := by
    intro k c h
    dsimp only at h
    split at h
    · cases h
      exact ⟨by norm_num, by norm_num⟩
    · cases h
  have g2 : GoodMap (fun k => if k = [97] then some ⟨1, 2, 0, 0, 1⟩ else none) := by
    intro k c h
    dsimp only at h
    split at h
    · cases h
      exact ⟨by norm_num, by norm_num⟩
    · cases h
  refine ⟨?_, ?_⟩
  · exact tally_and_merge_invariants.1 [97, 59, 49, 10] [97] ⟨1, 1, 0, 0, 1⟩ (by decide)
  · exact tally_and_merge_invariants.2
      (fun k => if k = [97] then some ⟨1, 1, 0, 0, 1⟩ else none)
      (fun k => if k = [97] then some ⟨1, 2, 0, 0, 1⟩ else none)
      [97] ⟨1, 2, 0, 0, 2⟩ g1 g2 (by norm_num [mergeMaps, mrg, mergeCity])

/-! Commutativity and associativity of the reducer merge (claim C8). -/

lemma mergeCity_assoc_fields (a b c : CityMetrics) :
    (mergeCity (mergeCity a b) c).low = (mergeCity a (mergeCity b c)).low
  ∧ (mergeCity (mergeCity a b) c).high = (mergeCity a (mergeCity b c)).high
  ∧ (mergeCity (mergeCity a b) c).temperature_sum
      = (mergeCity a (mergeCity b c)).temperature_sum
  ∧ (mergeCity (mergeCity a b) c).num_temps = (mergeCity a (mergeCity b c)).num_temps := by
  obtain ⟨lab, hab, nab, sab, _⟩ := mergeCity_fields a b
  obtain ⟨lbc, hbc, nbc, sbc, _⟩ := mergeCity_fields b c
  obtain ⟨l1, h1, n1, s1, _⟩ := mergeCity_fields (mergeCity a b) c
  obtain ⟨l2, h2, n2, s2, _⟩ := mergeCity_fields a (mergeCity b c)
  refine ⟨?_, ?_, ?_, ?_⟩
  · rw [l1, lab, l2, lbc, min_assoc]
  · rw [h1, hab, h2, hbc, max_assoc]
  · rw [s1, sab, s2, sbc, add_assoc]
  · rw [n1, nab, n2, nbc, Nat.add_assoc]

lemma proj4_mrg_comm (o1 o2 : Option CityMetrics) :
    proj4 (mrg o1 o2) = proj4 (mrg o2 o1) := by
  cases o1 with
  | none => cases o2 <;> simp [mrg]
  | some a =>
    cases o2 with
    | none => simp [mrg]
    | some b =>
      obtain ⟨l1, h1a, n1, s1, _⟩ := mergeCity_fields a b
      obtain ⟨l2, h2a, n2, s2, _⟩ := mergeCity_fields b a
      simp [mrg, proj4, l1, h1a, n1, s1, l2, h2a, n2, s2, min_comm, max_comm,
        Nat.add_comm, add_comm]

lemma proj4_mrg_assoc (o1 o2 o3 : Option CityMetrics) :
    proj4 (mrg (mrg o1 o2) o3) = proj4 (mrg o1 (mrg o2 o3)) := by
  cases o1 with
  | none => cases o2 <;> cases o3 <;> simp [mrg]
  | some a =>
    cases o2 with
    | none => cases o3 <;> simp [mrg]
    | some b =>
      cases o3 with
      | none => simp [mrg]
      | some c =>
        obtain ⟨e1, e2, e3, e4⟩ := mergeCity_assoc_fields a b c
        simp [mrg, proj4, e1, e2, e3, e4]

/-- C8: the reducer merge on aggregate mappings is commutative and
associative in the fields low, high, sum and count, for every key, so the
reduced result does not depend on the arrival order of partial mappings. -/
theorem merge_commutative_associative :
    (∀ (m1 m2 : CMap) (k : List Nat),
       proj4 (mergeMaps m1 m2 k) = proj4 (mergeMaps m2 m1 k))
  ∧ (∀ (m1 m2 m3 : CMap) (k : List Nat),
       proj4 (mergeMaps (mergeMaps m1 m2) m3 k) = proj4 (mergeMaps m1 (mergeMaps m2 m3) k)) := by
  constructor
  · intro m1 m2 k
    exact proj4_mrg_comm (m1 k) (m2 k)
  · intro m1 m2 m3 k
    exact proj4_mrg_assoc (m1 k) (m2 k) (m3 k)

/-! Concrete evaluations of single records and small chunks. -/

lemma processRecord_eval (m : CMap) (rec city temp : List Nat) (v : ℚ)
    (hv : validUtf8 rec = true) (hs : splitOnce rec = some (city, temp))
    (hp : parseNum temp = some v) :
    processRecord m rec = some (applyRecord m city v) := by
  simp only [processRecord, hv, hs, hp, if_true]

lemma parseNum_one : parseNum [49] = some 1 := by
  norm_num [parseNum, isDigit, digitsVal, List.takeWhile, List.dropWhile, List.foldl]

lemma parseNum_two : parseNum [50] = some 2 := by
  norm_num [parseNum, isDigit, digitsVal, List.takeWhile, List.dropWhile, List.foldl]

lemma parseNum_215 : parseNum [50, 49, 46, 53] = some (43/2) := by
  norm_num [parseNum, isDigit, digitsVal, List.takeWhile, List.dropWhile, List.foldl]

lemma tallyMap_two_records :
    tallyMap [97, 59, 49, 10, 97, 59, 50, 10] =
      some (applyRecord (applyRecord emptyMap [97] 1) [97] 2) := by
  show (tallyRun (emptyMap, []) ([97, 59, 49] ++ 10 :: ([97, 59, 50] ++ 10 :: []))).map
      (fun t => t.1) = _
  rw [tallyRun_record _ _ _ (by decide),
      processRecord_eval emptyMap [97, 59, 49] [97] [49] 1 (by decide) (by decide) parseNum_one]
  simp only [Option.bind]
  rw [tallyRun_record _ _ _ (by decide),
      processRecord_eval _ [97, 59, 50] [97] [50] 2 (by decide) (by decide) parseNum_two]
  simp only [Option.bind, tallyRun_nil, Option.map]

lemma tallyMap_chunk1 :
    tallyMap [97, 59, 49, 10] = some (applyRecord emptyMap [97] 1) := by
  show (tallyRun (emptyMap, []) ([97, 59, 49] ++ 10 :: [])).map (fun t => t.1) = _
  rw [tallyRun_record _ _ _ (by decide),
      processRecord_eval emptyMap [97, 59, 49] [97] [49] 1 (by decide) (by decide) parseNum_one]
  simp only [Option.bind, tallyRun_nil, Option.map]

lemma tallyMap_chunk2 :
    tallyMap [97, 59, 50, 10, 0] = some (applyRecord emptyMap [97] 2) := by
  show (tallyRun (emptyMap, []) ([97, 59, 50] ++ 10 :: [0])).map (fun t => t.1) = _
  rw [tallyRun_record _ _ _ (by decide),
      processRecord_eval emptyMap [97, 59, 50] [97] [50] 2 (by decide) (by decide) parseNum_two]
  simp only [Option.bind]
  rw [tallyRun_no_newline [0] _ [] (by decide)]
  simp only [Option.map]

/-- C2 (counterexample): on the file with the two records a;1 and a;2 and a
buffer size that splits them into two chunks, the merged per-chunk result
differs from the single-chunk result in the running sum of key a (0 versus
2), because each chunk-local first sight of a key leaves its value out of
the sum. The low, high and count fields agree. -/
theorem chunking_sum_counterexample :
    (pipelineMerged [97, 59, 49, 10, 97, 59, 50, 10] 5).map (fun m => proj4 (m [97]))
      ≠ (tallyMap [97, 59, 49, 10, 97, 59, 50, 10]).map (fun m => proj4 (m [97])) := by
  have hc : splitChunks [97, 59, 49, 10, 97, 59, 50, 10] 5
      = [[97, 59, 49, 10], [97, 59, 50, 10, 0]] := by decide
  unfold pipelineMerged
  rw [hc, tallyMap_two_records]
  simp only [List.mapM_cons, List.mapM_nil, tallyMap_chunk1, tallyMap_chunk2,
    Option.bind, Option.pure_def, Option.bind_eq_bind, Option.some_bind]
  norm_num [List.foldl, mergeMaps, mrg, emptyMap, applyRecord, tallyInsert, tallyUpdate,
    mergeCity, proj4, Option.map, CityMetrics.mk.injEq]

lemma tallyMap_paris :
    tallyMap [80, 97, 114, 105, 115, 59, 50, 49, 46, 53, 10, 0] =
      some (applyRecord emptyMap [80, 97, 114, 105, 115] (43/2)) := by
  show (tallyRun (emptyMap, []) ([80, 97, 114, 105, 115, 59, 50, 49, 46, 53] ++ 10 :: [0])).map
      (fun t => t.1) = _
  rw [tallyRun_record _ _ _ (by decide),
      processRecord_eval emptyMap _ [80, 97, 114, 105, 115] [50, 49, 46, 53] (43/2)
        (by decide) (by decide) parseNum_215]
  simp only [Option.bind]
  rw [tallyRun_no_newline [0] _ [] (by decide)]
  simp only [Option.map]

/-- C3 (evaluation at the failing input): the pipeline on the single-record
file Paris;21.5 finalizes the mean of Paris to 0, not 21.5, because the
running sum was initialized to 0 on first sight and the mean is computed
as sum / count. The low and high fields are 21.5 as expected. -/
theorem single_record_mean_zero :
    (pipelineFinal [80, 97, 114, 105, 115, 59, 50, 49, 46, 53, 10] 12).bind
        (fun m => m [80, 97, 114, 105, 115]) =
      some { low := 43/2, high := 43/2, temperature_sum := 0, mean := 0, num_temps := 1 } := by
  have hc : splitChunks [80, 97, 114, 105, 115, 59, 50, 49, 46, 53, 10] 12
      = [[80, 97, 114, 105, 115, 59, 50, 49, 46, 53, 10, 0]] := by decide
  unfold pipelineFinal pipelineMerged
  rw [hc]
  simp only [List.mapM_cons, List.mapM_nil, tallyMap_paris, Option.bind, Option.pure_def,
    Option.bind_eq_bind, Option.some_bind]
  norm_num [List.foldl, mergeMaps, mrg, emptyMap, applyRecord, tallyInsert, finalizeMap,
    Option.map, Option.bind, CityMetrics.mk.injEq]

/-- C5 (evaluation at the failing input): on an empty source the read loop
dispatches no chunk, and the collection loop of main can only check its
exit condition after receiving a message, so it blocks forever and no
final mapping is ever produced (modelled as none), for every buffer
size. -/
theorem empty_input_blocks_forever (bufSize : Nat) :
    splitChunks [] bufSize = [] ∧ pipelineMerged [] bufSize = none := by
  have h1 : splitChunks [] bufSize = [] := by
    simp [splitChunks, splitGo, List.take_nil]
  refine ⟨h1, ?_⟩
  unfold pipelineMerged
  rw [h1]

/-- C6 (counterexample): on a ten-byte stream whose first four-byte chunk
contains no record separator while more data remains, the read loop hits
the fatal alignment condition, yet processing does not abort: the final
mapping is still produced and contains key b. -/
theorem alignment_error_still_produces_mapping :
    splitAlignErr [97, 59, 255, 255, 255, 10, 98, 59, 50, 10] 4 = true
  ∧ (pipelineMerged [97, 59, 255, 255, 255, 10, 98, 59, 50, 10] 4).map (fun m => m [98]) =
      some (some { low := 2, high := 2, temperature_sum := 0, mean := 0, num_temps := 1 }) := by
  constructor
  · decide
  · decide

lemma findIdx_option_lt_length {p : Nat → Bool} :
    ∀ (l : List Nat) (j i : Nat), List.findIdx? p l j = some i → i < j + l.length := by
  intro l
  induction l with
  | nil => intro j i h; rw [List.findIdx?_nil] at h; cases h
  | cons x xs ih =>
    intro j i h
    rw [List.findIdx?_cons] at h
    by_cases hp : p x = true
    · rw [if_pos hp] at h
      have : i = j := (Option.some.inj h).symm
      subst this
      simp
    · rw [if_neg hp] at h
      have := ih (j + 1) i h
      simp only [List.length_cons]
      omega

lemma append_shuffle (ch nc d p c t : List Nat) (h : ch ++ nc = c ++ t) :
    ch ++ (nc ++ d ++ p) = c ++ (t ++ d) ++ p := by
  calc ch ++ (nc ++ d ++ p) = (ch ++ nc) ++ (d ++ p) := by simp [List.append_assoc]
    _ = (c ++ t) ++ (d ++ p) := by rw [h]
    _ = c ++ (t ++ d) ++ p := by simp [List.append_assoc]

lemma splitGo_fuel (bufSize : Nat) :
    ∀ (f1 f2 : Nat) (carry remaining : List Nat),
      remaining.length < f1 → remaining.length < f2 →
      splitGo carry remaining bufSize f1 = splitGo carry remaining bufSize f2 := by
  intro f1
  induction f1 with
  | zero => intro f2 carry remaining h1 _; exact absurd h1 (Nat.not_lt_zero _)
  | succ n ih =>
    intro f2 carry remaining h1 h2
    cases f2 with
    | zero => exact absurd h2 (Nat.not_lt_zero _)
    | succ m =>
      simp only [splitGo]
      by_cases hr : (List.take (bufSize - carry.length) remaining).length = 0
      · rw [if_pos hr, if_pos hr]
      · rw [if_neg hr, if_neg hr]
        by_cases hrest : (List.drop (bufSize - carry.length) remaining).length = 0
        · rw [if_pos hrest, if_pos hrest]
        · rw [if_neg hrest, if_neg hrest]
          rw [List.length_take] at hr
          rw [List.length_drop] at hrest
          have hlt1 : (List.drop (bufSize - carry.length) remaining).length < n := by
            rw [List.length_drop]
            omega
          have hlt2 : (List.drop (bufSize - carry.length) remaining).length < m := by
            rw [List.length_drop]
            omega
          cases hf : (carry ++ List.take (bufSize - carry.length) remaining ++
              List.replicate (bufSize - carry.length -
                (List.take (bufSize - carry.length) remaining).length) 0).reverse.findIdx?
              (fun b => b == 10) with
          | some revpos =>
            simp only [hf]
            rw [ih m _ _ hlt1 hlt2]
          | none =>
            simp only [hf]
            rw [ih m _ _ hlt1 hlt2]

lemma splitGo_flatten (bufSize : Nat) (hB : 1 ≤ bufSize) :
    ∀ (fuel : Nat) (carry remaining : List Nat),
      carry.length < bufSize → (carry = [] ∨ remaining ≠ []) →
      remaining.length < fuel →
      ∃ pad, ((splitGo carry remaining bufSize fuel).1).flatten
        = carry ++ remaining ++ List.replicate pad 0 := by
  intro fuel
  induction fuel with
  | zero => intro carry remaining _ _ hf; exact absurd hf (Nat.not_lt_zero _)
  | succ n ih =>
    intro carry remaining hcar hdisj hf
    simp only [splitGo]
    by_cases hrem : remaining = []
    · subst hrem
      have hc : carry = [] := by
        rcases hdisj with h | h
        · exact h
        · exact absurd rfl h
      subst hc
      refine ⟨0, ?_⟩
      rw [if_pos (by simp [List.take_nil])]
      simp
    · have hlen : 1 ≤ remaining.length := by
        cases remaining with
        | nil => exact absurd rfl hrem
        | cons a l => simp
      have hreq : 1 ≤ bufSize - carry.length := by omega
      have htk : (List.take (bufSize - carry.length) remaining).length ≠ 0 := by
        rw [List.length_take]
        omega
      rw [if_neg htk]
      by_cases hrest : (List.drop (bufSize - carry.length) remaining).length = 0
      · rw [if_pos hrest]
        rw [List.length_drop] at hrest
        have hle : remaining.length ≤ bufSize - carry.length := by omega
        refine ⟨bufSize - carry.length - (List.take (bufSize - carry.length) remaining).length, ?_⟩
        rw [List.take_of_length_le hle]
        simp [List.append_assoc]
      · rw [if_neg hrest]
        have hrne : List.drop (bufSize - carry.length) remaining ≠ [] := by
          intro hx
          rw [hx] at hrest
          exact hrest rfl
        rw [List.length_drop] at hrest
        have hgt : bufSize - carry.length < remaining.length := by omega
        have htkeq : (List.take (bufSize - carry.length) remaining).length
            = bufSize - carry.length := by
          rw [List.length_take]
          omega
        have hpad0 : bufSize - carry.length - (List.take (bufSize - carry.length) remaining).length
            = 0 := by omega
        rw [hpad0]
        have hrlt : (List.drop (bufSize - carry.length) remaining).length < n := by
          rw [List.length_drop]
          omega
        have hbuflen : (carry ++ List.take (bufSize - carry.length) remaining ++
            List.replicate 0 0).length = bufSize := by
          rw [List.length_append, List.length_append, htkeq, List.length_replicate]
          omega
        cases hf2 : (carry ++ List.take (bufSize - carry.length) remaining ++
            List.replicate 0 0).reverse.findIdx? (fun b => b == 10) with
        | some revpos =>
          simp only [hf2]
          have hrevlt : revpos < bufSize := by
            have hb := findIdx_option_lt_length _ 0 revpos hf2
            rw [List.length_reverse, hbuflen] at hb
            omega
          have hnewcar : (List.drop ((carry ++ List.take (bufSize - carry.length) remaining ++
              List.replicate 0 0).length - revpos) (carry ++
              List.take (bufSize - carry.length) remaining ++ List.replicate 0 0)).length
              < bufSize := by
            rw [List.length_drop, hbuflen]
            omega
          obtain ⟨pad, hpad⟩ := ih _ _ hnewcar (Or.inr hrne) hrlt
          refine ⟨pad, ?_⟩
          rw [List.flatten_cons, hpad,
            append_shuffle _ _ _ _ carry (List.take (bufSize - carry.length) remaining)
              (by rw [List.take_append_drop]; simp),
            List.take_append_drop]
        | none =>
          simp only [hf2]
          obtain ⟨pad, hpad⟩ := ih [] _ (by simpa using hB) (Or.inr hrne) hrlt
          refine ⟨pad, ?_⟩
          rw [List.flatten_cons, hpad]
          rw [append_shuffle _ _ _ _ carry (List.take (bufSize - carry.length) remaining)
              (by simp), List.take_append_drop]

/-- C4 (amended): concatenating the Chunk Splitter's outputs in emission
order reproduces the original byte stream followed by some number of
trailing zero bytes: the final chunk is emitted as allocated, so the
zero-initialized tail its read did not overwrite is kept. No byte of the
stream itself is lost, reordered, duplicated or altered. -/
theorem split_chunks_flatten_padded (stream : List Nat) (bufSize : Nat) (hB : 1 ≤ bufSize) :
    ∃ pad, (splitChunks stream bufSize).flatten = stream ++ List.replicate pad 0 := by
  obtain ⟨pad, h⟩ := splitGo_flatten bufSize hB (stream.length + 1) [] stream
    (by simp only [List.length_nil]; omega) (Or.inl rfl) (by omega)
  refine ⟨pad, ?_⟩
  simpa [splitChunks] using h

/-- C4 (counterexample): on the four-byte stream a;1 with a five-byte
buffer, the single read leaves one zero-initialized byte in the buffer and
the chunk is emitted as-is, so the concatenation of the emitted chunks is
not the original byte stream. -/
theorem split_concat_not_lossless :
    (splitChunks [97, 59, 49, 10] 5).flatten ≠ [97, 59, 49, 10] := by decide

/-- Witness for the amended C4 statement at the same concrete stream. -/
theorem split_chunks_flatten_padded_witness :
    ∃ pad, (splitChunks [97, 59, 49, 10] 5).flatten = [97, 59, 49, 10] ++ List.replicate pad 0 :=
  split_chunks_flatten_padded [97, 59, 49, 10] 5 (by decide)

lemma splitGo_first_misaligned (stream : List Nat) (B : Nat) (hB : 1 ≤ B)
    (hBlt : B < stream.length) (hno : ∀ b ∈ stream.take B, b ≠ 10) (n : Nat) :
    splitGo [] stream B (n + 1) = (stream.take B :: (splitGo [] (stream.drop B) B n).1, true) := by
  have hlen1 : 1 ≤ stream.length := by omega
  simp only [splitGo, List.length_nil, Nat.sub_zero, List.nil_append]
  have htk : (List.take B stream).length ≠ 0 := by
    rw [List.length_take]
    omega
  rw [if_neg htk]
  have hdr : (List.drop B stream).length ≠ 0 := by
    rw [List.length_drop]
    omega
  rw [if_neg hdr]
  have hpad0 : B - (List.take B stream).length = 0 := by
    rw [List.length_take]
    omega
  rw [hpad0]
  simp only [List.replicate_zero, List.append_nil]
  have hfnone : (List.take B stream).reverse.findIdx? (fun b => b == 10) = none := by
    rw [List.findIdx?_eq_none_iff]
    intro x hx
    rw [List.mem_reverse] at hx
    exact beq_eq_false_iff_ne.mpr (hno x hx)
  rw [hfnone]

/-- C6 (amended): the fatal conditions do not abort the pipeline. When a
full chunk contains no record separator while more source data remains,
the read loop logs an error and continues, emitting the untrimmed chunk
and carrying nothing; and whenever at least one chunk was dispatched and
every dispatched chunk's tally task succeeds, the collection phase still
reduces all per-chunk mappings into a final mapping. -/
theorem alignment_error_continues_and_reduces :
    (∀ (stream : List Nat) (B : Nat), 1 ≤ B → B < stream.length →
       (∀ b ∈ stream.take B, b ≠ 10) →
       splitChunks stream B = stream.take B :: splitChunks (stream.drop B) B
         ∧ splitAlignErr stream B = true)
  ∧ (∀ (stream : List Nat) (B : Nat), splitChunks stream B ≠ [] →
       ((splitChunks stream B).mapM tallyMap).isSome = true →
       (pipelineMerged stream B).isSome = true) := by
  constructor
  · intro stream B hB hBlt hno
    unfold splitChunks splitAlignErr
    rw [splitGo_first_misaligned stream B hB hBlt hno stream.length]
    refine ⟨?_, rfl⟩
    have heq : splitGo [] (stream.drop B) B stream.length
        = splitGo [] (stream.drop B) B ((stream.drop B).length + 1) := by
      apply splitGo_fuel
      · rw [List.length_drop]
        omega
      · omega
    rw [heq]
  · intro stream B hne hsome
    unfold pipelineMerged
    cases hc : splitChunks stream B with
    | nil => exact absurd hc hne
    | cons c cs =>
      rw [hc] at hsome
      cases hm : (c :: cs).mapM tallyMap with
      | none =>
        rw [hm] at hsome
        simp at hsome
      | some ms =>
        simp only [hm]
        rfl

/-- Witness for the amended C6 statements at the concrete ten-byte stream
whose first chunk of four bytes holds no separator. -/
theorem alignment_error_continues_and_reduces_witness :
    (splitChunks [97, 59, 255, 255, 255, 10, 98, 59, 50, 10] 4
       = List.take 4 [97, 59, 255, 255, 255, 10, 98, 59, 50, 10]
           :: splitChunks (List.drop 4 [97, 59, 255, 255, 255, 10, 98, 59, 50, 10]) 4
     ∧ splitAlignErr [97, 59, 255, 255, 255, 10, 98, 59, 50, 10] 4 = true)
  ∧ (pipelineMerged [97, 59, 255, 255, 255, 10, 98, 59, 50, 10] 4).isSome = true :=
  ⟨alignment_error_continues_and_reduces.1 _ 4 (by decide) (by decide) (by decide),
   alignment_error_continues_and_reduces.2 _ 4 (by decide) (by decide)⟩

/-! The chunked-versus-whole simulation argument (claim C2). -/

lemma mrg_none_right (o : Option CityMetrics) : mrg o none = o := by
  cases o <;> rfl

lemma mrg_none_left (o : Option CityMetrics) : mrg none o = o := by
  cases o <;> rfl

lemma mergeMaps_empty_left (m : CMap) : mergeMaps emptyMap m = m := by
  funext k
  show mrg none (m k) = m k
  exact mrg_none_left (m k)

lemma proj3_none_iff (o : Option CityMetrics) : proj3 o = none ↔ o = none := by
  cases o <;> simp [proj3]

lemma proj3_some_inj {o : Option CityMetrics} {a : CityMetrics}
    (h : proj3 o = proj3 (some a)) :
    ∃ a2, o = some a2 ∧ a2.low = a.low ∧ a2.high = a.high ∧ a2.num_temps = a.num_temps := by
  cases o with
  | none => simp [proj3] at h
  | some a2 =>
    simp only [proj3, Option.map_some', Option.some.injEq, Prod.mk.injEq] at h
    exact ⟨a2, rfl, h.1, h.2.1, h.2.2⟩

lemma proj3_ext {a b : CityMetrics} (hl : a.low = b.low) (hh : a.high = b.high)
    (hn : a.num_temps = b.num_temps) : proj3 (some a) = proj3 (some b) := by
  simp [proj3, hl, hh, hn]

lemma proj3_mrg_congr_right (o1 o2 o2' : Option CityMetrics)
    (h : proj3 o2 = proj3 o2') : proj3 (mrg o1 o2) = proj3 (mrg o1 o2') := by
  cases o2 with
  | none =>
    have h2 : o2' = none := by
      rw [← proj3_none_iff]
      exact h.symm
    rw [h2]
  | some b =>
    obtain ⟨b2, hb2, hl, hh, hn⟩ := proj3_some_inj h.symm
    rw [hb2]
    cases o1 with
    | none =>
      simp only [mrg]
      exact (proj3_ext hl hh hn).symm
    | some a =>
      simp only [mrg]
      obtain ⟨l1, h1, n1, _, _⟩ := mergeCity_fields a b
      obtain ⟨l2, h2x, n2, _, _⟩ := mergeCity_fields a b2
      exact (proj3_ext (by rw [l1, l2, hl]) (by rw [h1, h2x, hh]) (by rw [n1, n2, hn])).symm

lemma proj3_mrg_assoc (o1 o2 o3 : Option CityMetrics) :
    proj3 (mrg (mrg o1 o2) o3) = proj3 (mrg o1 (mrg o2 o3)) := by
  cases o1 with
  | none => rw [mrg_none_left, mrg_none_left]
  | some a =>
    cases o2 with
    | none => rw [mrg_none_right, mrg_none_left]
    | some b =>
      cases o3 with
      | none => rw [mrg_none_right, mrg_none_right]
      | some c =>
        simp only [mrg]
        obtain ⟨e1, e2, _, e4⟩ := mergeCity_assoc_fields a b c
        exact proj3_ext e1 e2 e4

lemma applyRecord_self_some (m : CMap) (city : List Nat) (v : ℚ) (c : CityMetrics)
    (h : m city = some c) : applyRecord m city v city = some (tallyUpdate c v) := by
  simp [applyRecord, h]

lemma applyRecord_self_none (m : CMap) (city : List Nat) (v : ℚ)
    (h : m city = none) : applyRecord m city v city = some (tallyInsert v) := by
  simp [applyRecord, h]

lemma applyRecord_other (m : CMap) (city : List Nat) (v : ℚ) (k : List Nat)
    (h : ¬ k = city) : applyRecord m city v k = m k := by
  simp [applyRecord, h]

lemma proj3_apply_sim (base m1 m2 : CMap) (city : List Nat) (v : ℚ)
    (hb : GoodMap base) (h2 : GoodMap m2)
    (hs : ∀ k, proj3 (m1 k) = proj3 (mrg (base k) (m2 k))) :
    ∀ k, proj3 (applyRecord m1 city v k) = proj3 (mrg (base k) (applyRecord m2 city v k)) := by
  intro k
  by_cases hk : k = city
  · rw [hk]
    have hsk := hs city
    cases hbk : base city with
    | none =>
      rw [hbk, mrg_none_left] at hsk
      rw [mrg_none_left]
      cases hm2k : m2 city with
      | none =>
        rw [hm2k] at hsk
        have hm1k : m1 city = none := (proj3_none_iff _).mp (by rw [hsk]; rfl)
        rw [applyRecord_self_none m1 city v hm1k, applyRecord_self_none m2 city v hm2k]
      | some b =>
        rw [hm2k] at hsk
        obtain ⟨a, ha, hl, hh, hn⟩ := proj3_some_inj hsk
        have hblh := (h2 city b hm2k).1
        have halh : a.low ≤ a.high := by
          rw [hl, hh]
          exact hblh
        rw [applyRecord_self_some m1 city v a ha, applyRecord_self_some m2 city v b hm2k]
        obtain ⟨ul1, uh1, un1, _⟩ := tallyUpdate_fields a v halh
        obtain ⟨ul2, uh2, un2, _⟩ := tallyUpdate_fields b v hblh
        exact proj3_ext (by rw [ul1, ul2, hl]) (by rw [uh1, uh2, hh]) (by rw [un1, un2, hn])
    | some cc =>
      rw [hbk] at hsk
      have hclh := (hb city cc hbk).1
      cases hm2k : m2 city with
      | none =>
        rw [hm2k, mrg_none_right] at hsk
        obtain ⟨a, ha, hl, hh, hn⟩ := proj3_some_inj hsk
        have halh : a.low ≤ a.high := by
          rw [hl, hh]
          exact hclh
        rw [applyRecord_self_some m1 city v a ha, applyRecord_self_none m2 city v hm2k]
        simp only [mrg]
        obtain ⟨ul1, uh1, un1, _⟩ := tallyUpdate_fields a v halh
        obtain ⟨ml, mh, mn, _, _⟩ := mergeCity_fields cc (tallyInsert v)
        refine proj3_ext ?_ ?_ ?_
        · rw [ul1, ml, hl]
          rfl
        · rw [uh1, mh, hh]
          rfl
        · rw [un1, mn, hn]
          rfl
      | some b =>
        rw [hm2k] at hsk
        simp only [mrg] at hsk
        obtain ⟨a, ha, hl, hh, hn⟩ := proj3_some_inj hsk
        have hblh := (h2 city b hm2k).1
        obtain ⟨cl, chh, cn, _, _⟩ := mergeCity_fields cc b
        have halh : a.low ≤ a.high := by
          rw [hl, hh, cl, chh]
          exact le_trans (min_le_left _ _) (le_trans hclh (le_max_left _ _))
        rw [applyRecord_self_some m1 city v a ha, applyRecord_self_some m2 city v b hm2k]
        simp only [mrg]
        obtain ⟨ul1, uh1, un1, _⟩ := tallyUpdate_fields a v halh
        obtain ⟨ul2, uh2, un2, _⟩ := tallyUpdate_fields b v hblh
        obtain ⟨m2l, m2h, m2n, _, _⟩ := mergeCity_fields cc (tallyUpdate b v)
        refine proj3_ext ?_ ?_ ?_
        · rw [ul1, m2l, ul2, hl, cl, min_assoc]
        · rw [uh1, m2h, uh2, hh, chh, max_assoc]
        · rw [un1, m2n, un2, hn, cn, Nat.add_assoc]
  · rw [applyRecord_other m1 city v k hk, applyRecord_other m2 city v k hk]
    exact hs k

lemma tallyStep_nl (s : CMap × List Nat) :
    tallyStep s 10 = (processRecord s.1 s.2).map (fun m => (m, ([] : List Nat))) := by
  simp [tallyStep]

lemma processRecord_invalid (m : CMap) (rec : List Nat) (h : validUtf8 rec = false) :
    processRecord m rec = some m := by
  simp [processRecord, h]

lemma processRecord_nosemi (m : CMap) (rec : List Nat) (hv : validUtf8 rec = true)
    (hs : splitOnce rec = none) : processRecord m rec = none := by
  simp [processRecord, hv, hs]

lemma processRecord_badnum (m : CMap) (rec city temp : List Nat) (hv : validUtf8 rec = true)
    (hs : splitOnce rec = some (city, temp)) (hp : parseNum temp = none) :
    processRecord m rec = none := by
  simp [processRecord, hv, hs, hp]

lemma tallyRun_sim (base : CMap) (hb : GoodMap base) :
    ∀ (data : List Nat) (m1 m2 : CMap) (acc : List Nat),
      GoodMap m2 → (∀ k, proj3 (m1 k) = proj3 (mrg (base k) (m2 k))) →
      match tallyRun (m1, acc) data, tallyRun (m2, acc) data with
      | none, none => True
      | some t1, some t2 =>
          t1.2 = t2.2 ∧ GoodMap t2.1 ∧ ∀ k, proj3 (t1.1 k) = proj3 (mrg (base k) (t2.1 k))
      | _, _ => False := by
  intro data
  induction data with
  | nil =>
    intro m1 m2 acc h2 hs
    rw [tallyRun_nil, tallyRun_nil]
    exact ⟨rfl, h2, hs⟩
  | cons b rest ih =>
    intro m1 m2 acc h2 hs
    rw [tallyRun_cons, tallyRun_cons]
    by_cases hb10 : b = 10
    · subst hb10
      rw [tallyStep_nl, tallyStep_nl]
      cases hvu : validUtf8 acc with
      | false =>
        rw [processRecord_invalid m1 acc hvu, processRecord_invalid m2 acc hvu]
        simp only [Option.map_some', Option.some_bind]
        exact ih m1 m2 [] h2 hs
      | true =>
        cases hsp : splitOnce acc with
        | none =>
          rw [processRecord_nosemi m1 acc hvu hsp, processRecord_nosemi m2 acc hvu hsp]
          simp only [Option.map_none', Option.none_bind]
        | some p =>
          obtain ⟨city, temp⟩ := p
          cases hpn : parseNum temp with
          | none =>
            rw [processRecord_badnum m1 acc city temp hvu hsp hpn,
                processRecord_badnum m2 acc city temp hvu hsp hpn]
            simp only [Option.map_none', Option.none_bind]
          | some v =>
            rw [processRecord_eval m1 acc city temp v hvu hsp hpn,
                processRecord_eval m2 acc city temp v hvu hsp hpn]
            simp only [Option.map_some', Option.some_bind]
            exact ih (applyRecord m1 city v) (applyRecord m2 city v) []
              (goodMap_applyRecord m2 city v h2)
              (proj3_apply_sim base m1 m2 city v hb h2 hs)
    · rw [show tallyStep (m1, acc) b = some (m1, acc ++ [b]) from by simp [tallyStep, hb10],
          show tallyStep (m2, acc) b = some (m2, acc ++ [b]) from by simp [tallyStep, hb10]]
      simp only [Option.some_bind]
      exact ih m1 m2 (acc ++ [b]) h2 hs

lemma tally_append_sim (c1 c2 : List Nat) (m1 : CMap)
    (hend : c1.getLast? = some 10) (h1 : tallyMap c1 = some m1) :
    match tallyMap (c1 ++ c2), tallyMap c2 with
    | some m12, some m2 => ∀ k, proj3 (m12 k) = proj3 (mrg (m1 k) (m2 k))
    | none, none => True
    | _, _ => False := by
  have hg1 : GoodMap m1 := tallyMap_good c1 m1 h1
  have hrun : tallyRun (emptyMap, []) c1 = some (m1, []) := by
    unfold tallyMap at h1
    rw [Option.map_eq_some'] at h1
    obtain ⟨t, ht, htm⟩ := h1
    have ht2 : t.2 = [] := tallyRun_ends_newline c1 _ t hend ht
    obtain ⟨tm, tacc⟩ := t
    simp only at htm ht2
    rw [htm, ht2] at ht
    exact ht
  have hsim := tallyRun_sim m1 hg1 c2 m1 emptyMap [] goodMap_empty
    (fun k => by rw [show emptyMap k = none from rfl, mrg_none_right])
  unfold tallyMap
  rw [tallyRun_append, hrun]
  simp only [Option.some_bind]
  cases hr1 : tallyRun (m1, []) c2 with
  | none =>
    rw [hr1] at hsim
    cases hr2 : tallyRun (emptyMap, []) c2 with
    | none =>
      simp only [Option.map_none']
    | some t2 =>
      rw [hr2] at hsim
      exact hsim.elim
  | some t1 =>
    rw [hr1] at hsim
    cases hr2 : tallyRun (emptyMap, []) c2 with
    | none =>
      rw [hr2] at hsim
      exact hsim.elim
    | some t2 =>
      rw [hr2] at hsim
      obtain ⟨-, -, hproj⟩ := hsim
      simp only [Option.map_some']
      exact hproj

lemma fold_merge_proj3 :
    ∀ (ms : List CMap) (m1 : CMap) (k : List Nat),
      proj3 (List.foldl mergeMaps m1 ms k)
        = proj3 (mrg (m1 k) (List.foldl mergeMaps emptyMap ms k)) := by
  intro ms
  induction ms with
  | nil =>
    intro m1 k
    simp only [List.foldl_nil]
    rw [show emptyMap k = none from rfl, mrg_none_right]
  | cons m2 t ih =>
    intro m1 k
    simp only [List.foldl_cons]
    rw [ih (mergeMaps m1 m2) k, mergeMaps_empty_left,
      show (mergeMaps m1 m2) k = mrg (m1 k) (m2 k) from rfl, proj3_mrg_assoc]
    exact (proj3_mrg_congr_right _ _ _ (ih m2 k)).symm

lemma tally_join_sim :
    ∀ (chunks : List (List Nat)), alignedChunks chunks = true →
      ∀ (ms : List CMap), chunks.mapM tallyMap = some ms →
      ∃ m, tallyMap chunks.flatten = some m
        ∧ ∀ k, proj3 (m k) = proj3 (List.foldl mergeMaps emptyMap ms k) := by
  intro chunks
  induction chunks with
  | nil =>
    intro _ ms hms
    rw [List.mapM_nil] at hms
    have hnil : ms = [] := (Option.some.inj hms).symm
    subst hnil
    exact ⟨emptyMap, rfl, fun k => rfl⟩
  | cons c rest ih =>
    intro ha ms hms
    simp only [List.mapM_cons, Option.pure_def, Option.bind_eq_bind] at hms
    rw [Option.bind_eq_some] at hms
    obtain ⟨m1, h1, hms⟩ := hms
    rw [Option.bind_eq_some] at hms
    obtain ⟨ms2, hms2, heq⟩ := hms
    have hcons : ms = m1 :: ms2 := (Option.some.inj heq).symm
    subst hcons
    cases rest with
    | nil =>
      rw [List.mapM_nil] at hms2
      have hnil : ms2 = [] := (Option.some.inj hms2).symm
      subst hnil
      refine ⟨m1, ?_, ?_⟩
      · simpa [List.flatten_cons] using h1
      · intro k
        simp only [List.foldl_cons, List.foldl_nil]
        rw [mergeMaps_empty_left]
    | cons c2 rest2 =>
      have hand : endsNL c = true ∧ alignedChunks (c2 :: rest2) = true := by
        have hrw : alignedChunks (c :: c2 :: rest2)
            = (endsNL c && alignedChunks (c2 :: rest2)) := rfl
        rw [hrw] at ha
        simp only [Bool.and_eq_true] at ha
        exact ha
      obtain ⟨mr, hmr, hproj⟩ := ih hand.2 ms2 hms2
      have hend : c.getLast? = some 10 := by
        have hb := hand.1
        unfold endsNL at hb
        exact beq_iff_eq.mp hb
      have hsim := tally_append_sim c (c2 :: rest2).flatten m1 hend h1
      rw [hmr] at hsim
      cases h12 : tallyMap (c ++ (c2 :: rest2).flatten) with
      | none =>
        rw [h12] at hsim
        exact hsim.elim
      | some m12 =>
        rw [h12] at hsim
        refine ⟨m12, ?_, ?_⟩
        · rw [List.flatten_cons]
          exact h12
        · intro k
          rw [hsim k]
          simp only [List.foldl_cons]
          rw [mergeMaps_empty_left, fold_merge_proj3 ms2 m1 k]
          exact proj3_mrg_congr_right _ _ _ (hproj k)

/-- C2 (amended): for chunks in which every chunk except possibly the last
ends exactly after a record separator, and whose tallies all succeed,
merging the per-chunk mappings yields for every key the same low, high and
count as tallying the whole concatenation at once. (The running sum is
excluded: it differs whenever a key is first seen in more than one chunk,
because insert-on-first-sight initializes the sum to 0, see the
counterexample.) -/
theorem chunked_tally_matches_whole_on_low_high_count :
    ∀ (chunks : List (List Nat)) (k : List Nat), alignedChunks chunks = true →
      ((chunks.mapM tallyMap).isSome = true) →
      (tallyMap chunks.flatten).map (fun m => proj3 (m k))
        = (chunks.mapM tallyMap).map (fun ms => proj3 (List.foldl mergeMaps emptyMap ms k)) := by
  intro chunks k ha hsome
  rw [Option.isSome_iff_exists] at hsome
  obtain ⟨ms, hms⟩ := hsome
  obtain ⟨m, hm, hproj⟩ := tally_join_sim chunks ha ms hms
  rw [hm, hms]
  simp only [Option.map_some']
  rw [hproj k]

/-- Witness for the amended C2 statement on the two aligned chunks holding
a;1 and a;2, at the key a. -/
theorem chunked_tally_matches_whole_on_low_high_count_witness :
    alignedChunks [[97, 59, 49, 10], [97, 59, 50, 10]] = true
  ∧ (([[97, 59, 49, 10], [97, 59, 50, 10]] : List (List Nat)).mapM tallyMap).isSome = true
  ∧ (tallyMap ([[97, 59, 49, 10], [97, 59, 50, 10]] : List (List Nat)).flatten).map
        (fun m => proj3 (m [97]))
      = (([[97, 59, 49, 10], [97, 59, 50, 10]] : List (List Nat)).mapM tallyMap).map
          (fun ms => proj3 (List.foldl mergeMaps emptyMap ms [97])) :=
  ⟨by decide, by decide,
   chunked_tally_matches_whole_on_low_high_count [[97, 59, 49, 10], [97, 59, 50, 10]] [97]
     (by decide) (by decide)⟩
